import Mathlib

/-!
Formal model of the WhatsApp accountant bot's intent-driven file retrieval
and media-ingestion pipeline.

The definitions below are a shallow embedding of the webhook handler
(src/unnamed/part_000) and of the PostgreSQL repository layer
(src/unnamed/part_003).  Time is modelled as an integer number of
milliseconds; following the JavaScript `Date` arithmetic used by the code
(`setHours(0,0,0,0)`, `setDate(getDate()-1)`), a local calendar day is the
half-open window of 86400000 ms starting at `day * 86400000`.  SQL `ILIKE
pattern` with a `%term%` pattern is modelled as case-insensitive substring
containment (wildcard characters inside a term are not modelled), and `LIKE
'type%'` on the MIME type as a prefix test.  String primitives are
re-implemented on `List Char` so that every definition evaluates inside the
kernel; `Char.isWhitespace` stands for the JavaScript `\s` class and
`Char.toLower` for `String.prototype.toLowerCase` (both agree on ASCII,
which is the alphabet all relevant code paths produce).
-/

/-- One row of the `media_files` table joined with its parent `messages`
row, as returned by every query in db.js: the generated file name, the
optional AI/user description, the MIME type, the byte size, the storage
locator on disk, and the parent message's creation timestamp
(`m.created_at AS message_date`), in milliseconds. -/
structure MediaFile where
  file_name : String
  file_description : Option String
  file_type : String
  file_size : Nat
  storage_url : String
  message_date : Int
deriving Repr, DecidableEq, Inhabited

/-- Boolean test that `pat` is a prefix of `l` (character lists). -/
def prefixB : List Char → List Char → Bool
  | [], _ => true
  | _ :: _, [] => false
  | a :: as, b :: bs => a == b && prefixB as bs

/-- Boolean test that `pat` occurs as a contiguous substring of `l`. -/
def substrB (pat : List Char) : List Char → Bool
  | [] => pat.isEmpty
  | c :: rest => prefixB pat (c :: rest) || substrB pat rest

/-- Case-insensitive substring containment: the meaning of the SQL
`hay ILIKE pat-with-percent-wildcards-around-it` for a wildcard-free `pat`. -/
def containsCI (hay pat : String) : Bool :=
  substrB (pat.data.map Char.toLower) (hay.data.map Char.toLower)

/-- Prefix test on strings, the meaning of SQL `s LIKE 'pre%'` for a
wildcard-free `pre` (and of JavaScript `s.startsWith(pre)`). -/
def startsWithB (s pre : String) : Bool :=
  prefixB pre.data s.data

/-- SQL `field ILIKE '%term%'` where `field` is a nullable column:
a NULL field never matches. -/
def sqlIlike (field : Option String) (term : String) : Bool :=
  match field with
  | none => false
  | some s => containsCI s term

/-- SQL `REPLACE(name, '-', ' ')`. -/
def replaceHyphensWithSpaces (s : String) : String :=
  String.mk (s.data.map fun c => if c == '-' then ' ' else c)

/-- Split a character list at every whitespace character (empty pieces are
kept, exactly like splitting on the regex `\s+` keeps a leading empty
piece). -/
def splitWs : List Char → List (List Char)
  | [] => [[]]
  | c :: rest =>
    if c.isWhitespace then [] :: splitWs rest
    else
      match splitWs rest with
      | [] => [[c]]
      | w :: ws => (c :: w) :: ws

/-- `searchTerm.split(/\s+/).filter(term => term.length > 0)` from
`searchMediaByDescription` in db.js. -/
def splitSearchTerms (searchTerm : String) : List String :=
  ((splitWs searchTerm.data).filter fun w => w.length > 0).map String.mk

/-- Sort key of every repository query: `ORDER BY m.created_at DESC`. -/
def dateDesc (a b : MediaFile) : Prop :=
  b.message_date ≤ a.message_date

instance : DecidableRel dateDesc := fun a b =>
  inferInstanceAs (Decidable (b.message_date ≤ a.message_date))

instance : IsTotal MediaFile dateDesc :=
  ⟨fun a b => le_total b.message_date a.message_date⟩

instance : IsTrans MediaFile dateDesc :=
  ⟨fun _ _ _ h1 h2 => le_trans h2 h1⟩

/-- `ORDER BY m.created_at DESC` applied to a bag of rows. -/
def sortByDateDesc (l : List MediaFile) : List MediaFile :=
  List.insertionSort dateDesc l

/-- A result list is most-recent-first. -/
def MostRecentFirst (l : List MediaFile) : Prop :=
  List.Pairwise dateDesc l

/-- `getAllMediaFiles(phoneNumber, limit)` (db.js): all of the user's media
rows, most recent first, truncated to `limit`.  The `db` argument is the
user's full bag of media rows (the `WHERE m.phone_number = $1` part of every
query is abstracted by passing only this user's rows). -/
def getAllMediaFiles (db : List MediaFile) (limit : Nat) : List MediaFile :=
  (sortByDateDesc db).take limit

/-- `searchMediaFiles(phoneNumber, fileType, limit)` (db.js):
`mf.file_type LIKE 'fileType%'`, most recent first, truncated to `limit`. -/
def searchMediaFiles (db : List MediaFile) (fileType : String) (limit : Nat) :
    List MediaFile :=
  (sortByDateDesc (db.filter fun f => startsWithB f.file_type fileType)).take limit

/-- `getLatestMediaFile(phoneNumber, fileType)` (db.js): `LIMIT 1` of the
type-filtered, most-recent-first rows. -/
def getLatestMediaFile (db : List MediaFile) (fileType : String) :
    Option MediaFile :=
  (sortByDateDesc (db.filter fun f => startsWithB f.file_type fileType)).head?

/-- `getMediaByDateRange(phoneNumber, startDate, endDate)` (db.js):
`m.created_at >= startDate AND m.created_at <= endDate` (both ends
inclusive), most recent first, no limit. -/
def getMediaByDateRange (db : List MediaFile) (startDate endDate : Int) :
    List MediaFile :=
  sortByDateDesc
    (db.filter fun f =>
      decide (startDate ≤ f.message_date) && decide (f.message_date ≤ endDate))

/-- One `(mf.file_description ILIKE $k OR mf.file_name ILIKE $k OR
REPLACE(mf.file_name,'-',' ') ILIKE $k)` disjunct of
`searchMediaByDescription`, for one search term. -/
def rowMatchesTerm (f : MediaFile) (term : String) : Bool :=
  sqlIlike f.file_description term
    || sqlIlike (some f.file_name) term
    || sqlIlike (some (replaceHyphensWithSpaces f.file_name)) term

/-- `searchMediaByDescription(phoneNumber, searchTerm, limit)` (db.js):
the query tokenizes `searchTerm` on whitespace, drops empty tokens, and
builds an OR of per-term conditions; when the token list is empty the
`WHERE` clause degenerates to the phone filter alone, so every row
qualifies.  Results are most recent first, truncated to `limit`. -/
def searchMediaByDescription (db : List MediaFile) (searchTerm : String)
    (limit : Nat) : List MediaFile :=
  let searchTerms := splitSearchTerms searchTerm
  let rows :=
    if searchTerms.isEmpty then db
    else db.filter fun f => searchTerms.any (rowMatchesTerm f)
  (sortByDateDesc rows).take limit

/-- `intent.action` of the classifier's structured output
(`"retrieve|info|list|none"`). -/
inductive FAction where
  | retrieve
  | info
  | list
  | noneAct
deriving Repr, DecidableEq

/-- `intent.confidence` (`"high|medium|low"`). -/
inductive Confidence where
  | high
  | medium
  | low
deriving Repr, DecidableEq

/-- `intent.timeframe` (`"latest|today|yesterday|all"`; `none` models JSON
`null`). -/
inductive Timeframe where
  | latest
  | today
  | yesterday
  | allTime
deriving Repr, DecidableEq

/-- `intent.infoType` (`"filename|count|date|all"`; `none` models JSON
`null`). -/
inductive InfoKind where
  | filename
  | count
  | date
  | allInfo
deriving Repr, DecidableEq

/-- The classifier's parsed intent object (webhook lines 263-270). -/
structure Intent where
  action : FAction
  fileType : Option String
  timeframe : Option Timeframe
  infoType : Option InfoKind
  searchQuery : Option String
  confidence : Confidence
deriving Repr, DecidableEq

/-- One storage query executed against the repository layer; the webhook
handler is instrumented to record each call it makes so that "no storage
query runs" is expressible. -/
inductive QueryKind where
  | semantic (q : String) (limit : Nat)
  | latestOfType (fileType : String)
  | allFiles (limit : Nat)
  | dateRange (startMs endMs : Int)
  | typedSearch (fileType : String) (limit : Nat)
deriving Repr, DecidableEq

/-- Milliseconds per local calendar day. -/
def msPerDay : Int := 86400000

/-- The `else` arm of the webhook's query dispatch (lines 337-371):
timeframe-driven resolution, reached when `intent.searchQuery` is falsy.
`nowDay`/`nowMs` decompose the current local time: `new Date()` is
`nowDay * msPerDay + nowMs` and `setHours(0,0,0,0)` yields
`nowDay * msPerDay`; `setDate(getDate()-1)` steps to `nowDay - 1`. -/
def resolveStructural (intent : Intent) (db : List MediaFile)
    (nowDay nowMs : Int) : List MediaFile × List QueryKind :=
  match intent.timeframe with
  | some .latest =>
    match intent.fileType with
    | some ft =>
      (match getLatestMediaFile db ft with
       | some f => [f]
       | none => [],
       [.latestOfType ft])
    | none => (getAllMediaFiles db 1, [.allFiles 1])
  | some .yesterday =>
    let yStart := (nowDay - 1) * msPerDay
    let yEnd := yStart + 86399999
    let rs := getMediaByDateRange db yStart yEnd
    let rs' :=
      match intent.fileType with
      | some ft => rs.filter fun f => startsWithB f.file_type ft
      | none => rs
    (rs', [.dateRange yStart yEnd])
  | some .today =>
    let tStart := nowDay * msPerDay
    let tEnd := nowDay * msPerDay + nowMs
    let rs := getMediaByDateRange db tStart tEnd
    let rs' :=
      match intent.fileType with
      | some ft => rs.filter fun f => startsWithB f.file_type ft
      | none => rs
    (rs', [.dateRange tStart tEnd])
  | some .allTime =>
    match intent.fileType with
    | some ft => (searchMediaFiles db ft 20, [.typedSearch ft 20])
    | none => (getAllMediaFiles db 20, [.allFiles 20])
  | none => ([], [])

/-- The webhook's query dispatch (lines 329-372): `if (intent.searchQuery)`
is a JavaScript truthiness test, so the semantic branch runs exactly when
`searchQuery` is a non-null, non-empty string. -/
def resolveQuery (intent : Intent) (db : List MediaFile)
    (nowDay nowMs : Int) : List MediaFile × List QueryKind :=
  match intent.searchQuery with
  | some q =>
    if q = "" then resolveStructural intent db nowDay nowMs
    else (searchMediaByDescription db q 10, [.semantic q 10])
  | none => resolveStructural intent db nowDay nowMs

/-- `searchResults.slice(0, 10).forEach((file, index) => ...)` with the
1-based label `index + 1` printed next to each file: the numbered menu used
both by the `list` action and by the multi-match selection prompt. -/
def numberedMenu (results : List MediaFile) : List (Nat × MediaFile) :=
  (results.take 10).enum.map fun p => (p.1 + 1, p.2)

/-- Observable outcome of the file-query block, one constructor per
user-visible reply (or per fall-through into normal conversation). -/
inductive FQResult where
  | clarify
  | noneFound
  | infoReply (f : MediaFile) (kind : InfoKind)
  | countReply (n : Nat)
  | listReply (entries : List (Nat × MediaFile)) (total : Nat)
  | sentDirect (f : MediaFile)
  | storageMissDirect (f : MediaFile)
  | sendErrorDirect (f : MediaFile)
  | askSelection (menu : List (Nat × MediaFile)) (total : Nat)
  | fallthrough
deriving Repr, DecidableEq

/-- The `action === 'info'` branch (webhook lines 375-404). -/
def infoBranch (infoType : Option InfoKind) (results : List MediaFile) :
    FQResult :=
  if results.length = 0 then .noneFound
  else
    match infoType with
    | some .filename => .infoReply (results.getD 0 default) .filename
    | some .count => .countReply results.length
    | some .date => .infoReply (results.getD 0 default) .date
    | _ => .infoReply (results.getD 0 default) .allInfo

/-- The `action === 'list'` branch (webhook lines 406-426). -/
def listBranch (results : List MediaFile) : FQResult :=
  if results.length = 0 then .noneFound
  else .listReply (numberedMenu results) results.length

/-- The `action === 'retrieve'` branch (webhook lines 428-506).
`storageHas` models `fs.existsSync` on a storage locator and `sendOk`
whether the outbound transport call succeeds.  The second component is the
update applied to `pendingFileRetrievals` for this conversation: `none`
means the map entry is left untouched, `some l` means it is set to `l`. -/
def handleRetrieve (results : List MediaFile) (storageHas : String → Bool)
    (sendOk : Bool) : FQResult × Option (List MediaFile) :=
  if results.length = 0 then (.noneFound, none)
  else if results.length = 1 then
    let file := results.getD 0 default
    (if storageHas file.storage_url then
       if sendOk then .sentDirect file else .sendErrorDirect file
     else .storageMissDirect file,
     none)
  else
    (.askSelection (numberedMenu results) results.length,
     some (results.take 10))

/-- The whole file-query block (webhook lines 302-513), from intent parsing
onward.  `parsed = none` models a classifier output from which no JSON
object could be extracted: the code throws `'Intent parsing failed'`, the
outer `catch (queryError)` swallows it, and processing falls through to the
normal conversational path; `action === 'none'` throws
`'Not a file query'` into the same catch.  The third component lists every
storage query that was executed. -/
def handleFileQuery (parsed : Option Intent) (db : List MediaFile)
    (nowDay nowMs : Int) (storageHas : String → Bool) (sendOk : Bool) :
    FQResult × Option (List MediaFile) × List QueryKind :=
  match parsed with
  | none => (.fallthrough, none, [])
  | some intent =>
    if intent.action = .noneAct then (.fallthrough, none, [])
    else if intent.confidence = .low then (.clarify, none, [])
    else
      let rq := resolveQuery intent db nowDay nowMs
      match intent.action with
      | .info => (infoBranch intent.infoType rq.1, none, rq.2)
      | .list => (listBranch rq.1, none, rq.2)
      | .retrieve =>
        let hr := handleRetrieve rq.1 storageHas sendOk
        (hr.1, hr.2, rq.2)
      | .noneAct => (.fallthrough, none, rq.2)

/-- JavaScript `String.prototype.trim`, re-implemented over the character
list so that it evaluates in the kernel. -/
def jsTrim (s : String) : String :=
  String.mk
    (((s.data.dropWhile Char.isWhitespace).reverse.dropWhile
        Char.isWhitespace).reverse)

/-- `incomingMsg.trim().match(/^\d+$/)`: non-empty and all decimal digits. -/
def isDigitsNonempty (s : String) : Bool :=
  !s.data.isEmpty && s.data.all Char.isDigit

/-- `parseInt` on a string of decimal digits. -/
def parseDecimal (s : String) : Nat :=
  s.data.foldl (fun acc c => acc * 10 + (c.toNat - 48)) 0

/-- Observable outcome of the pending-selection branch (webhook lines
185-235). -/
inductive SelOutcome where
  | sent (f : MediaFile)
  | storageMiss
  | sendError
  | reprompt (n : Nat)
deriving Repr, DecidableEq

/-- The body of the pending-selection branch, entered once the guard has
matched.  In range (`1 <= selection <= pendingFiles.length`): the selected
file is sent if its bytes exist and the transport succeeds, a storage-miss
or send-error message otherwise, and in every one of those cases
`pendingFileRetrievals.delete(from)` runs after the try/catch, so the
returned map entry is `none`.  Out of range: an invalid-option re-prompt
naming the range `1..pendingFiles.length`, and the entry is kept
unchanged. -/
def handlePendingSelection (pendingFiles : List MediaFile) (msg : String)
    (storageHas : String → Bool) (sendOk : Bool) :
    SelOutcome × Option (List MediaFile) :=
  let selection := parseDecimal (jsTrim msg)
  if 1 ≤ selection ∧ selection ≤ pendingFiles.length then
    let selectedFile := pendingFiles.getD (selection - 1) default
    (if storageHas selectedFile.storage_url then
       if sendOk then .sent selectedFile else .sendError
     else .storageMiss,
     none)
  else
    (.reprompt pendingFiles.length, some pendingFiles)

/-- What the top of the webhook does with an inbound message: either the
pending-selection branch consumed it (and replied and returned), or control
falls through to the rest of the handler (file query, media ingestion,
conversation). -/
inductive StepResult where
  | selectionStep (out : SelOutcome)
  | rest
deriving Repr, DecidableEq

/-- The pending-selection dispatch at the top of the webhook (lines
185-235): the guard is
`pendingFileRetrievals.has(from) && incomingMsg && incomingMsg.trim().match(/^\d+$/)`.
Note that the guard never inspects `numMedia`; the parameter is accepted
here precisely to state that fact.  The second component is the new
`pendingFileRetrievals` entry for this conversation. -/
def webhookStep (pending : Option (List MediaFile)) (msg : String)
    (numMedia : Nat) (storageHas : String → Bool) (sendOk : Bool) :
    StepResult × Option (List MediaFile) :=
  match pending with
  | some pendingFiles =>
    if !(msg == "") && isDigitsNonempty (jsTrim msg) then
      let r := handlePendingSelection pendingFiles msg storageHas sendOk
      (.selectionStep r.1, r.2)
    else (.rest, some pendingFiles)
  | none => (.rest, none)

/-- The character class `[a-z0-9-]` of the sanitization regexes. -/
def slugChar (c : Char) : Bool :=
  (97 ≤ c.toNat && c.toNat ≤ 122) || (48 ≤ c.toNat && c.toNat ≤ 57)
    || c == '-'

/-- The character class `[a-z0-9-\s]` kept by the custom-name chain. -/
def keepCustomChar (c : Char) : Bool :=
  slugChar c || c.isWhitespace

/-- `replace(/\s+/g, '-')`: each maximal whitespace run becomes a single
hyphen. -/
def collapseWsToHyphen : List Char → List Char
  | [] => []
  | [c] => if c.isWhitespace then ['-'] else [c]
  | c1 :: c2 :: rest =>
    if c1.isWhitespace && c2.isWhitespace then collapseWsToHyphen (c2 :: rest)
    else (if c1.isWhitespace then '-' else c1) :: collapseWsToHyphen (c2 :: rest)

/-- `replace(hyphen-run regex, '-')`: each maximal hyphen run becomes a single
hyphen. -/
def collapseHyphens : List Char → List Char
  | [] => []
  | [c] => [c]
  | c1 :: c2 :: rest =>
    if c1 == '-' && c2 == '-' then collapseHyphens (c2 :: rest)
    else c1 :: collapseHyphens (c2 :: rest)

/-- Helper for `replace(/^-+|-+$/g, '')`: remove the trailing hyphen run. -/
def stripTrailingHyphens : List Char → List Char
  | [] => []
  | c :: rest =>
    if (stripTrailingHyphens rest).isEmpty && c == '-' then []
    else c :: stripTrailingHyphens rest

/-- `replace(/^-+|-+$/g, '')`: remove the leading and the trailing hyphen
run. -/
def stripEdgeHyphens (l : List Char) : List Char :=
  stripTrailingHyphens (l.dropWhile fun c => c == '-')

/-- The custom-name sanitization chain (webhook lines 728-733):
`customName.toLowerCase().replace(/[^a-z0-9-\s]/g, '').replace(/\s+/g, '-')
.replace(hyphen-run regex, '-').substring(0, 50)`. -/
def sanitizeCustomName (s : String) : String :=
  String.mk
    ((collapseHyphens
        (collapseWsToHyphen
          ((s.data.map Char.toLower).filter keepCustomChar))).take 50)

/-- The image vision-name sanitization chain (webhook lines 774-778):
`result.filename.toLowerCase().replace(/[^a-z0-9-]/g, '-')
.replace(hyphen-run regex, '-').substring(0, 50)`. -/
def sanitizeImageName (s : String) : String :=
  String.mk
    ((collapseHyphens
        ((s.data.map Char.toLower).map fun c =>
          if slugChar c then c else '-')).take 50)

/-- The audio transcription-name sanitization chain (webhook lines
809-814): `content.toLowerCase().replace(/[^a-z0-9-]/g, '-')
.replace(/^-+|-+$/g, '').replace(hyphen-run regex, '-').substring(0, 50)` — note that
edge hyphens are stripped before collapsing and before truncation. -/
def sanitizeAudioName (s : String) : String :=
  String.mk
    ((collapseHyphens
        (stripEdgeHyphens
          ((s.data.map Char.toLower).map fun c =>
            if slugChar c then c else '-'))).take 50)

/-- `true` when the list contains no two consecutive hyphens. -/
def noDoubleHyphen : List Char → Bool
  | [] => true
  | [_] => true
  | c1 :: c2 :: rest => !(c1 == '-' && c2 == '-') && noDoubleHyphen (c2 :: rest)

/-- The output shape asserted by the spec for sanitized slugs: only
characters from `[a-z0-9-]`, at most 50 of them, and no two consecutive
hyphens. -/
def SanitizedShape (s : String) : Prop :=
  s.data.all slugChar = true ∧ s.data.length ≤ 50 ∧
    noDoubleHyphen s.data = true

/-- Modelled from the spec: the claimed semantic matching rule, written
from the claim's words — a stored file is a candidate exactly when at
least one whitespace-separated token of the query occurs as a
case-insensitive substring of the file's description, or of its filename,
or of its filename with hyphens replaced by spaces. -/
def specSemanticMatch (query : String) (f : MediaFile) : Bool :=
  (splitSearchTerms query).any fun tok =>
    containsCI (match f.file_description with | some d => d | none => "") tok
      || containsCI f.file_name tok
      || containsCI (replaceHyphensWithSpaces f.file_name) tok

/-- Concrete sample row: an image with no description, stored at `m/a`,
whose parent message timestamp is 3. -/
def fA : MediaFile :=
  { file_name := "a", file_description := none, file_type := "image/jpeg",
    file_size := 1, storage_url := "m/a", message_date := 3 }

/-- Concrete sample row: an image with no description, stored at `m/b`,
whose parent message timestamp is 5. -/
def fB : MediaFile :=
  { file_name := "b", file_description := none, file_type := "image/jpeg",
    file_size := 2, storage_url := "m/b", message_date := 5 }

/-- Concrete sample row: an image described as a cedula, stored at `m/c`,
whose parent message timestamp is 9. -/
def fC : MediaFile :=
  { file_name := "cedula-max", file_description := some "cedula dominicana",
    file_type := "image/jpeg", file_size := 9, storage_url := "m/c",
    message_date := 9 }

/-- Concrete sample row: a document whose name and (missing) description
match no interesting token, stored at `m/z`, timestamp 0. -/
def fZ : MediaFile :=
  { file_name := "zzz", file_description := none,
    file_type := "application/pdf", file_size := 7, storage_url := "m/z",
    message_date := 0 }

/-- Concrete sample row timestamped exactly 00:00:00.000 of local day 1
(86400000 ms). -/
def fMidnight : MediaFile :=
  { file_name := "mid", file_description := none, file_type := "image/jpeg",
    file_size := 1, storage_url := "m/mid", message_date := 86400000 }

/-- Concrete sample row timestamped exactly 23:59:59.999 of local day 0
(86399999 ms). -/
def fLastTick : MediaFile :=
  { file_name := "last", file_description := none, file_type := "image/jpeg",
    file_size := 1, storage_url := "m/last", message_date := 86399999 }

/-- A plain retrieve intent asking for the files of the current local day
(no fileType filter, no search query). -/
def todayIntent : Intent :=
  { action := .retrieve, fileType := none, timeframe := some .today,
    infoType := none, searchQuery := none, confidence := .high }

/-- A plain retrieve intent asking for the files of the previous local day
(no fileType filter, no search query). -/
def yesterdayIntent : Intent :=
  { action := .retrieve, fileType := none, timeframe := some .yesterday,
    infoType := none, searchQuery := none, confidence := .high }

/-- A retrieve intent whose searchQuery is the whitespace-only string
`" "` (non-null, truthy, but tokenless). -/
def wsQueryIntent : Intent :=
  { action := .retrieve, fileType := none, timeframe := none,
    infoType := none, searchQuery := some " ", confidence := .high }

/-- A retrieve intent whose searchQuery is the empty string (non-null but
falsy in JavaScript). -/
def emptyQueryIntent : Intent :=
  { action := .retrieve, fileType := none, timeframe := none,
    infoType := none, searchQuery := some "", confidence := .high }

/-- A retrieve intent with searchQuery "cedula" and structural filters
that the semantic path is expected to ignore. -/
def cedulaQueryIntent : Intent :=
  { action := .retrieve, fileType := some "image",
    timeframe := some .latest, infoType := none,
    searchQuery := some "cedula", confidence := .high }

theorem mostRecentFirst_sort (l : List MediaFile) :
    MostRecentFirst (sortByDateDesc l) :=
  List.sorted_insertionSort dateDesc l

theorem mostRecentFirst_take (n : Nat) {l : List MediaFile}
    (h : MostRecentFirst l) : MostRecentFirst (l.take n) :=
  List.Pairwise.sublist (List.take_sublist n l) h

theorem mostRecentFirst_filter (p : MediaFile → Bool) {l : List MediaFile}
    (h : MostRecentFirst l) : MostRecentFirst (l.filter p) :=
  List.Pairwise.sublist (List.filter_sublist l) h

theorem mem_sortByDateDesc {f : MediaFile} {l : List MediaFile} :
    f ∈ sortByDateDesc l ↔ f ∈ l :=
  (List.perm_insertionSort dateDesc l).mem_iff

/-- Every branch of the structural dispatch returns a most-recent-first
list. -/
theorem mostRecentFirst_resolveStructural (intent : Intent)
    (db : List MediaFile) (nowDay nowMs : Int) :
    MostRecentFirst (resolveStructural intent db nowDay nowMs).1 := by
  unfold resolveStructural
  rcases intent.timeframe with _ | tf
  · exact List.Pairwise.nil
  · rcases tf <;> rcases hft : intent.fileType with _ | ft <;>
      simp only [hft]
    · exact mostRecentFirst_take 1 (mostRecentFirst_sort db)
    · rcases hl : getLatestMediaFile db ft with _ | f
      · exact List.Pairwise.nil
      · exact List.pairwise_singleton dateDesc f
    · exact mostRecentFirst_sort _
    · exact mostRecentFirst_filter _ (mostRecentFirst_sort _)
    · exact mostRecentFirst_sort _
    · exact mostRecentFirst_filter _ (mostRecentFirst_sort _)
    · exact mostRecentFirst_take 20 (mostRecentFirst_sort db)
    · exact mostRecentFirst_take 20 (mostRecentFirst_sort _)

/-- Every query dispatch returns a most-recent-first list. -/
theorem mostRecentFirst_resolveQuery (intent : Intent) (db : List MediaFile)
    (nowDay nowMs : Int) :
    MostRecentFirst (resolveQuery intent db nowDay nowMs).1 := by
  unfold resolveQuery
  rcases intent.searchQuery with _ | q
  · exact mostRecentFirst_resolveStructural intent db nowDay nowMs
  · by_cases hq : q = ""
    · simp only [if_pos hq]
      exact mostRecentFirst_resolveStructural intent db nowDay nowMs
    · simp only [if_neg hq]
      exact mostRecentFirst_take 10 (mostRecentFirst_sort _)

theorem slugChar_cases {c : Char} (h : slugChar c = true) :
    (97 ≤ c.toNat ∧ c.toNat ≤ 122) ∨ (48 ≤ c.toNat ∧ c.toNat ≤ 57) ∨
      c.toNat = 45 := by
  simp only [slugChar, Bool.or_eq_true, Bool.and_eq_true, decide_eq_true_eq,
    beq_iff_eq] at h
  rcases h with (⟨h1, h2⟩ | ⟨h1, h2⟩) | hc
  · exact Or.inl ⟨h1, h2⟩
  · exact Or.inr (Or.inl ⟨h1, h2⟩)
  · subst hc; exact Or.inr (Or.inr rfl)

theorem slugChar_toLower {c : Char} (h : slugChar c = true) :
    c.toLower = c := by
  have hn : ¬(c.toNat ≥ 65 ∧ c.toNat ≤ 90) := by
    rcases slugChar_cases h with ⟨h1, h2⟩ | ⟨h1, h2⟩ | h1 <;> omega
  simp only [Char.toLower]
  rw [if_neg hn]

theorem ws_toNat {c : Char} (h : c.isWhitespace = true) :
    c.toNat = 32 ∨ c.toNat = 9 ∨ c.toNat = 13 ∨ c.toNat = 10 := by
  simp only [Char.isWhitespace, Bool.or_eq_true, decide_eq_true_eq] at h
  rcases h with ((hc | hc) | hc) | hc <;> subst hc <;> simp

theorem slugChar_not_ws {c : Char} (h : slugChar c = true) :
    c.isWhitespace = false := by
  cases hw : c.isWhitespace
  · rfl
  · exfalso
    rcases ws_toNat hw with h1 | h1 | h1 | h1 <;>
      rcases slugChar_cases h with ⟨h2, h3⟩ | ⟨h2, h3⟩ | h2 <;> omega

theorem slugChar_keep {c : Char} (h : slugChar c = true) :
    keepCustomChar c = true := by
  simp [keepCustomChar, h]

theorem map_id_of_all {t : List Char} {g : Char → Char}
    (h : ∀ c ∈ t, g c = c) : t.map g = t := by
  induction t with
  | nil => rfl
  | cons a r ih =>
    rw [List.map_cons, h a (List.mem_cons_self a r),
      ih fun c hc => h c (List.mem_cons_of_mem a hc)]

theorem collapseHyphens_head (l : List Char) :
    (collapseHyphens l).head? = l.head? := by
  induction l using collapseHyphens.induct with
  | case1 => rfl
  | case2 c => rfl
  | case3 c1 c2 rest h ih =>
    rw [collapseHyphens, if_pos h, ih]
    simp only [Bool.and_eq_true, beq_iff_eq] at h
    simp [h.1, h.2]
  | case4 c1 c2 rest h ih =>
    rw [collapseHyphens, if_neg h]
    rfl

theorem collapseHyphens_subset :
    ∀ l : List Char, ∀ c ∈ collapseHyphens l, c ∈ l := by
  intro l
  induction l using collapseHyphens.induct with
  | case1 => intro c hc; cases hc
  | case2 c => intro d hd; exact hd
  | case3 c1 c2 rest h ih =>
    rw [collapseHyphens, if_pos h]
    intro c hc
    exact List.mem_cons_of_mem c1 (ih c hc)
  | case4 c1 c2 rest h ih =>
    rw [collapseHyphens, if_neg h]
    intro c hc
    rcases List.mem_cons.mp hc with rfl | hc2
    · exact List.mem_cons_self _ _
    · exact List.mem_cons_of_mem c1 (ih c hc2)

theorem noDoubleHyphen_collapseHyphens (l : List Char) :
    noDoubleHyphen (collapseHyphens l) = true := by
  induction l using collapseHyphens.induct with
  | case1 => rfl
  | case2 c => rfl
  | case3 c1 c2 rest h ih => rw [collapseHyphens, if_pos h]; exact ih
  | case4 c1 c2 rest h ih =>
    rw [collapseHyphens, if_neg h]
    have hh := collapseHyphens_head (c2 :: rest)
    cases hcol : collapseHyphens (c2 :: rest) with
    | nil => rfl
    | cons d t =>
      rw [hcol] at hh ih
      have hd : d = c2 := by simpa using hh
      have hx : (c1 == '-' && d == '-') = false := by
        rw [hd]
        exact Bool.eq_false_iff.mpr h
      rw [noDoubleHyphen, Bool.and_eq_true, hx]
      exact ⟨rfl, ih⟩

theorem collapseHyphens_eq_self :
    ∀ l : List Char, noDoubleHyphen l = true → collapseHyphens l = l := by
  intro l
  induction l using collapseHyphens.induct with
  | case1 => intro _; rfl
  | case2 c => intro _; rfl
  | case3 c1 c2 rest h ih =>
    intro hnd
    rw [noDoubleHyphen, Bool.and_eq_true] at hnd
    rw [h] at hnd
    exact absurd hnd.1 (by simp)
  | case4 c1 c2 rest h ih =>
    intro hnd
    rw [noDoubleHyphen, Bool.and_eq_true] at hnd
    rw [collapseHyphens, if_neg h, ih hnd.2]

theorem noDoubleHyphen_take :
    ∀ l : List Char, noDoubleHyphen l = true →
      ∀ n : Nat, noDoubleHyphen (l.take n) = true := by
  intro l
  induction l using noDoubleHyphen.induct with
  | case1 => intro _ n; simp [noDoubleHyphen]
  | case2 c =>
    intro _ n
    rcases n with _ | m
    · rfl
    · simp [noDoubleHyphen]
  | case3 c1 c2 rest ih =>
    intro h n
    rw [noDoubleHyphen, Bool.and_eq_true] at h
    rcases n with _ | n1
    · rfl
    rcases n1 with _ | m
    · rfl
    · rw [List.take_succ_cons, List.take_succ_cons, noDoubleHyphen,
        Bool.and_eq_true]
      refine ⟨h.1, ?_⟩
      have := ih h.2 (m + 1)
      rwa [List.take_succ_cons] at this

theorem collapseWsToHyphen_chars :
    ∀ l : List Char, ∀ c ∈ collapseWsToHyphen l,
      c = '-' ∨ (c ∈ l ∧ c.isWhitespace = false) := by
  intro l
  induction l using collapseWsToHyphen.induct with
  | case1 => intro c hc; cases hc
  | case2 c hw =>
    intro d hd
    rw [collapseWsToHyphen, if_pos hw] at hd
    rcases List.mem_singleton.mp hd with rfl
    exact Or.inl rfl
  | case3 c hw =>
    intro d hd
    rw [collapseWsToHyphen, if_neg hw] at hd
    rcases List.mem_singleton.mp hd with rfl
    exact Or.inr ⟨List.mem_singleton_self d, Bool.eq_false_iff.mpr hw⟩
  | case4 c1 c2 rest h ih =>
    rw [collapseWsToHyphen, if_pos h]
    intro c hc
    rcases ih c hc with h1 | ⟨h1, h2⟩
    · exact Or.inl h1
    · exact Or.inr ⟨List.mem_cons_of_mem c1 h1, h2⟩
  | case5 c1 c2 rest h ih =>
    rw [collapseWsToHyphen, if_neg h]
    intro c hc
    rcases List.mem_cons.mp hc with rfl | hc2
    · by_cases hw : c1.isWhitespace = true
      · rw [if_pos hw]; exact Or.inl rfl
      · rw [if_neg hw]
        exact Or.inr ⟨List.mem_cons_self _ _, Bool.eq_false_iff.mpr hw⟩
    · rcases ih c hc2 with h1 | ⟨h1, h2⟩
      · exact Or.inl h1
      · exact Or.inr ⟨List.mem_cons_of_mem c1 h1, h2⟩

theorem collapseWsToHyphen_eq_self :
    ∀ l : List Char, (∀ c ∈ l, c.isWhitespace = false) →
      collapseWsToHyphen l = l := by
  intro l
  induction l using collapseWsToHyphen.induct with
  | case1 => intro _; rfl
  | case2 c hw =>
    intro hall
    exact absurd hw (by simp [hall c (List.mem_singleton_self c)])
  | case3 c hw =>
    intro _
    rw [collapseWsToHyphen, if_neg hw]
  | case4 c1 c2 rest h ih =>
    intro hall
    rw [Bool.and_eq_true] at h
    have h1 := hall c1 (List.mem_cons_self _ _)
    rw [h1] at h
    exact absurd h.1 (by simp)
  | case5 c1 c2 rest h ih =>
    intro hall
    have h1 : c1.isWhitespace = false := hall c1 (List.mem_cons_self _ _)
    rw [collapseWsToHyphen, if_neg h, if_neg (by simp [h1]),
      ih fun c hc => hall c (List.mem_cons_of_mem c1 hc)]

theorem stripTrailingHyphens_subset :
    ∀ l : List Char, ∀ c ∈ stripTrailingHyphens l, c ∈ l := by
  intro l
  induction l with
  | nil => intro c hc; cases hc
  | cons a r ih =>
    rw [stripTrailingHyphens]
    by_cases h : ((stripTrailingHyphens r).isEmpty && a == '-') = true
    · rw [if_pos h]; intro c hc; cases hc
    · rw [if_neg h]
      intro c hc
      rcases List.mem_cons.mp hc with rfl | hc2
      · exact List.mem_cons_self _ _
      · exact List.mem_cons_of_mem a (ih c hc2)

theorem stripTrailingHyphens_head (l : List Char) :
    stripTrailingHyphens l = [] ∨
      (stripTrailingHyphens l).head? = l.head? := by
  cases l with
  | nil => exact Or.inl rfl
  | cons a r =>
    rw [stripTrailingHyphens]
    by_cases h : ((stripTrailingHyphens r).isEmpty && a == '-') = true
    · rw [if_pos h]; exact Or.inl rfl
    · rw [if_neg h]; exact Or.inr rfl

theorem dropWhile_head_not (p : Char → Bool) :
    ∀ (l : List Char) (c : Char),
      (l.dropWhile p).head? = some c → p c = false := by
  intro l
  induction l with
  | nil => intro c hc; cases hc
  | cons a r ih =>
    intro c hc
    rw [List.dropWhile_cons] at hc
    by_cases hpa : p a = true
    · rw [if_pos hpa] at hc; exact ih c hc
    · rw [if_neg hpa] at hc
      obtain rfl : a = c := by simpa using hc
      exact Bool.eq_false_iff.mpr hpa

theorem data_mk (l : List Char) : (String.mk l).data = l := rfl

theorem mk_data (s : String) : String.mk s.data = s := rfl

theorem sanitizeImageName_shape (s : String) :
    SanitizedShape (sanitizeImageName s) := by
  unfold sanitizeImageName SanitizedShape
  rw [data_mk]
  refine ⟨?_, List.length_take_le 50 _, noDoubleHyphen_take _ (noDoubleHyphen_collapseHyphens _) 50⟩
  rw [List.all_eq_true]
  intro c hc
  have hc2 := collapseHyphens_subset _ c (List.mem_of_mem_take hc)
  rcases List.mem_map.mp hc2 with ⟨d, hd, hde⟩
  by_cases hs : slugChar d = true
  · rw [if_pos hs] at hde; rw [← hde]; exact hs
  · rw [if_neg hs] at hde; rw [← hde]; rfl

theorem sanitizeCustomName_shape (s : String) :
    SanitizedShape (sanitizeCustomName s) := by
  unfold sanitizeCustomName SanitizedShape
  rw [data_mk]
  refine ⟨?_, List.length_take_le 50 _, noDoubleHyphen_take _ (noDoubleHyphen_collapseHyphens _) 50⟩
  rw [List.all_eq_true]
  intro c hc
  have hc2 := collapseHyphens_subset _ c (List.mem_of_mem_take hc)
  rcases collapseWsToHyphen_chars _ c hc2 with h1 | ⟨h1, h2⟩
  · rw [h1]; rfl
  · have hk := List.of_mem_filter h1
    simp only [keepCustomChar, Bool.or_eq_true] at hk
    rcases hk with hk | hk
    · exact hk
    · rw [hk] at h2; cases h2

theorem sanitizeAudioName_shape (s : String) :
    SanitizedShape (sanitizeAudioName s) := by
  unfold sanitizeAudioName SanitizedShape
  rw [data_mk]
  refine ⟨?_, List.length_take_le 50 _, noDoubleHyphen_take _ (noDoubleHyphen_collapseHyphens _) 50⟩
  rw [List.all_eq_true]
  intro c hc
  have hc2 := collapseHyphens_subset _ c (List.mem_of_mem_take hc)
  unfold stripEdgeHyphens at hc2
  have hc3 := stripTrailingHyphens_subset _ c hc2
  have hc4 := (List.dropWhile_sublist _).subset hc3
  rcases List.mem_map.mp hc4 with ⟨d, hd, hde⟩
  by_cases hs : slugChar d = true
  · rw [if_pos hs] at hde; rw [← hde]; exact hs
  · rw [if_neg hs] at hde; rw [← hde]; rfl

theorem sanitizeImageName_idem (s : String) :
    sanitizeImageName (sanitizeImageName s) = sanitizeImageName s := by
  obtain ⟨hall, hlen, hnd⟩ := sanitizeImageName_shape s
  rw [List.all_eq_true] at hall
  conv_lhs => rw [sanitizeImageName]
  rw [map_id_of_all fun c hc => slugChar_toLower (hall c hc),
    map_id_of_all fun c hc => if_pos (hall c hc),
    collapseHyphens_eq_self _ hnd, List.take_of_length_le hlen, mk_data]

theorem sanitizeCustomName_idem (s : String) :
    sanitizeCustomName (sanitizeCustomName s) = sanitizeCustomName s := by
  obtain ⟨hall, hlen, hnd⟩ := sanitizeCustomName_shape s
  rw [List.all_eq_true] at hall
  conv_lhs => rw [sanitizeCustomName]
  rw [map_id_of_all fun c hc => slugChar_toLower (hall c hc),
    List.filter_eq_self.mpr fun c hc => slugChar_keep (hall c hc),
    collapseWsToHyphen_eq_self _ fun c hc => slugChar_not_ws (hall c hc),
    collapseHyphens_eq_self _ hnd, List.take_of_length_le hlen, mk_data]

theorem sanitizeAudioName_noLead (s : String) :
    ((sanitizeAudioName s).data.head? == some '-') = false := by
  unfold sanitizeAudioName
  rw [data_mk, List.head?_take, if_neg (by omega : ¬(50 : Nat) = 0),
    collapseHyphens_head]
  unfold stripEdgeHyphens
  set m := ((s.data.map Char.toLower).map fun c =>
    if slugChar c then c else '-') with hm
  rcases stripTrailingHyphens_head (m.dropWhile fun c => c == '-') with hz | hz
  · rw [hz]; rfl
  · rw [hz]
    cases hh : (m.dropWhile fun c => c == '-').head? with
    | none => rfl
    | some c =>
      have hne := dropWhile_head_not _ m c hh
      have hcne : c ≠ '-' := by
        intro hx
        rw [hx] at hne
        simp at hne
      simp [hcne]


theorem msg_ne_empty_of_digits {msg : String}
    (hd : isDigitsNonempty (jsTrim msg) = true) : (msg == "") = false := by
  cases hm : msg == ""
  · rfl
  · exfalso
    have hemp : msg = "" := by simpa using hm
    rw [hemp] at hd
    exact absurd hd (by decide)

theorem selection_guard_true {msg : String}
    (hd : isDigitsNonempty (jsTrim msg) = true) :
    (!(msg == "") && isDigitsNonempty (jsTrim msg)) = true := by
  rw [msg_ne_empty_of_digits hd, hd]
  rfl

/-- C1: selection round-trip of the pending-selection state machine.  For a
conversation whose `pendingFileRetrievals` entry holds `files` and an
inbound pure-digit reply whose value is `k`: if `1 <= k <= files.length`
(and the stored bytes exist and the transport succeeds), the k-th stored
candidate (1-based) is sent and the pending entry is deleted; if `k` is out
of range, the handler re-prompts naming the valid range
`1..files.length` and leaves the same entry in place. -/
theorem selection_round_trip (files : List MediaFile) (msg : String)
    (k numMedia : Nat) (storageHas : String → Bool) (sendOk : Bool)
    (hd : isDigitsNonempty (jsTrim msg) = true)
    (hk : parseDecimal (jsTrim msg) = k) :
    (1 ≤ k → k ≤ files.length →
      storageHas (files.getD (k - 1) default).storage_url = true →
      sendOk = true →
      webhookStep (some files) msg numMedia storageHas sendOk =
        (.selectionStep (.sent (files.getD (k - 1) default)), none)) ∧
    (¬(1 ≤ k ∧ k ≤ files.length) →
      webhookStep (some files) msg numMedia storageHas sendOk =
        (.selectionStep (.reprompt files.length), some files)) := by
  have hg := selection_guard_true hd
  constructor
  · intro h1 h2 hs hsend
    simp only [webhookStep]
    rw [if_pos hg]
    simp only [handlePendingSelection, hk]
    rw [if_pos ⟨h1, h2⟩, if_pos hs, if_pos hsend]
  · intro hout
    simp only [webhookStep]
    rw [if_pos hg]
    simp only [handlePendingSelection, hk]
    rw [if_neg hout]

/-- C1 witness: a pending list of two files, reply "2" selects the second
file and clears the state; reply "3" re-prompts with range 1..2 and keeps
the state. -/
theorem selection_round_trip_witness :
    webhookStep (some [fB, fA]) "2" 0 (fun _ => true) true =
      (.selectionStep (.sent fA), none) ∧
    webhookStep (some [fB, fA]) "3" 0 (fun _ => true) true =
      (.selectionStep (.reprompt 2), some [fB, fA]) := by
  constructor
  · exact (selection_round_trip [fB, fA] "2" 2 0 _ _ (by decide)
      (by decide)).1 (by decide) (by decide) rfl rfl
  · exact (selection_round_trip [fB, fA] "3" 3 0 _ _ (by decide)
      (by decide)).2 (by decide)

/-- C10 (implicit): an in-range numeric selection deletes the pending
entry unconditionally — independently of whether the bytes exist at the
storage locator or the outbound send succeeds — and a retry of the same
number afterwards finds no pending state (the dispatch falls through). -/
theorem inrange_delete_unconditional (files : List MediaFile) (msg : String)
    (k numMedia : Nat) (storageHas : String → Bool) (sendOk : Bool)
    (hd : isDigitsNonempty (jsTrim msg) = true)
    (hk : parseDecimal (jsTrim msg) = k)
    (h1 : 1 ≤ k) (h2 : k ≤ files.length) :
    (webhookStep (some files) msg numMedia storageHas sendOk).2 = none ∧
    webhookStep none msg numMedia storageHas sendOk = (.rest, none) := by
  refine ⟨?_, rfl⟩
  simp only [webhookStep]
  rw [if_pos (selection_guard_true hd)]
  simp only [handlePendingSelection, hk]
  rw [if_pos ⟨h1, h2⟩]

/-- C10 witness: a storage miss (`storageHas` constantly false) still
deletes the pending entry on the in-range reply "1". -/
theorem inrange_delete_unconditional_witness :
    (webhookStep (some [fA]) "1" 0 (fun _ => false) false).2 = none ∧
    webhookStep none "1" 0 (fun _ => false) false = (.rest, none) :=
  inrange_delete_unconditional [fA] "1" 1 0 _ _ (by decide) (by decide)
    (by decide) (by decide)

/-- C6 counterexample: the pending-selection guard never inspects the
attachment count, so an inbound message that carries a media attachment
(`numMedia = 1`) whose caption is the pure-digit text "1" IS consumed by
the pending-selection state machine — it resolves candidate 1 and clears
the pending entry — contradicting the claim that an inbound carrying a
media attachment is never consumed while a selection is awaited. -/
theorem selection_guard_counterexample :
    webhookStep (some [fA]) "1" 1 (fun _ => true) true =
      (.selectionStep (.sent fA), none) := by
  rfl

/-- C6 (amended): while a selection is pending, an inbound whose trimmed
text is not a pure digit string (this includes an empty body) is never
consumed — it neither resolves nor clears nor re-prompts, and the same
pending entry survives; but the guard ignores the attachment count
entirely, so the dispatch outcome is independent of `numMedia` and a
media-bearing message with a pure-digit caption is consumed exactly like
a text message. -/
theorem selection_guard_amended :
    (∀ (pendingFiles : List MediaFile) (msg : String) (numMedia : Nat)
        (storageHas : String → Bool) (sendOk : Bool),
      isDigitsNonempty (jsTrim msg) = false →
      webhookStep (some pendingFiles) msg numMedia storageHas sendOk =
        (.rest, some pendingFiles)) ∧
    (∀ (pending : Option (List MediaFile)) (msg : String) (n1 n2 : Nat)
        (storageHas : String → Bool) (sendOk : Bool),
      webhookStep pending msg n1 storageHas sendOk =
        webhookStep pending msg n2 storageHas sendOk) := by
  constructor
  · intro files msg numMedia sh sOk hd
    simp only [webhookStep]
    rw [if_neg]
    rw [hd, Bool.and_false]
    exact Bool.false_ne_true
  · intro pending msg n1 n2 sh sOk
    cases pending <;> rfl

/-- C6 witness: the non-digit text "which one?" leaves a one-element
pending set untouched, and the dispatch does not depend on the attachment
count. -/
theorem selection_guard_amended_witness :
    webhookStep (some [fA]) "which one?" 0 (fun _ => true) true =
      (.rest, some [fA]) ∧
    webhookStep none "5" 0 (fun _ => true) true =
      webhookStep none "5" 7 (fun _ => true) true :=
  ⟨selection_guard_amended.1 [fA] "which one?" 0 _ _ (by decide),
   selection_guard_amended.2 none "5" 0 7 _ _⟩

/-- C4: the confidence gate.  Any parsed intent with `confidence = low`
whose action is not `none` makes the handler emit exactly one clarifying
prompt and stop: no storage query of any kind is executed (the recorded
query list is empty) and no pending selection is created, regardless of
the intent's action, fileType, timeframe or searchQuery. -/
theorem confidence_gate (intent : Intent) (db : List MediaFile)
    (nowDay nowMs : Int) (storageHas : String → Bool) (sendOk : Bool)
    (hc : intent.confidence = .low) (ha : intent.action ≠ .noneAct) :
    handleFileQuery (some intent) db nowDay nowMs storageHas sendOk =
      (.clarify, none, []) := by
  simp only [handleFileQuery]
  rw [if_neg ha, if_pos hc]

/-- C4 witness: a low-confidence retrieve intent with a search query, a
file type and a timeframe still performs no query. -/
theorem confidence_gate_witness :
    handleFileQuery
        (some { action := .retrieve, fileType := some "image",
                timeframe := some .allTime, infoType := none,
                searchQuery := some "cedula", confidence := .low })
        [fC] 0 0 (fun _ => true) true = (.clarify, none, []) :=
  confidence_gate _ [fC] 0 0 _ _ rfl (by decide)

/-- C9: classification parse failure is observably identical to a parsed
intent with `action = none`: both produce no storage query, no reply, no
pending-selection update, and fall through to normal conversational
processing. -/
theorem parse_failure_equiv_none (db : List MediaFile) (nowDay nowMs : Int)
    (storageHas : String → Bool) (sendOk : Bool) :
    handleFileQuery none db nowDay nowMs storageHas sendOk =
      (.fallthrough, none, []) ∧
    (∀ intent : Intent, intent.action = .noneAct →
      handleFileQuery (some intent) db nowDay nowMs storageHas sendOk =
        handleFileQuery none db nowDay nowMs storageHas sendOk) := by
  refine ⟨rfl, ?_⟩
  intro intent ha
  simp only [handleFileQuery]
  rw [if_pos ha]

/-- C9 witness: an `action = none` intent behaves exactly like a parse
failure on a concrete store. -/
theorem parse_failure_equiv_none_witness :
    handleFileQuery none [fA] 0 0 (fun _ => true) true =
      (.fallthrough, none, []) ∧
    handleFileQuery
        (some { action := .noneAct, fileType := none, timeframe := none,
                infoType := none, searchQuery := none,
                confidence := .high })
        [fA] 0 0 (fun _ => true) true =
      handleFileQuery none [fA] 0 0 (fun _ => true) true :=
  ⟨(parse_failure_equiv_none [fA] 0 0 _ _).1,
   (parse_failure_equiv_none [fA] 0 0 _ _).2 _ rfl⟩

theorem enumFrom_menu_snd (l : List MediaFile) :
    ∀ n : Nat,
      ((List.enumFrom n l).map fun p => (p.1 + 1, p.2)).map Prod.snd = l := by
  induction l with
  | nil => intro n; rfl
  | cons a r ih =>
    intro n
    simp only [List.enumFrom, List.map_cons]
    rw [ih]

theorem enumFrom_menu_fst (l : List MediaFile) :
    ∀ n : Nat,
      ((List.enumFrom n l).map fun p => (p.1 + 1, p.2)).map Prod.fst =
        List.range' (n + 1) l.length := by
  induction l with
  | nil => intro n; rfl
  | cons a r ih =>
    intro n
    simp only [List.enumFrom, List.map_cons, List.length_cons,
      List.range'_succ]
    rw [ih]

/-- The numbered menu lists exactly the first ten results, in order, and
its printed labels are the consecutive 1-based indices 1, 2, .... -/
theorem numberedMenu_spec (results : List MediaFile) :
    (numberedMenu results).map Prod.snd = results.take 10 ∧
    (numberedMenu results).map Prod.fst =
      List.range' 1 (results.take 10).length := by
  unfold numberedMenu List.enum
  exact ⟨enumFrom_menu_snd _ 0, enumFrom_menu_fst _ 0⟩

/-- C2: single-match short-circuit.  When a retrieve intent's query
resolves to exactly one MediaFile, the webhook handler leaves the
`pendingFileRetrievals` map untouched (no PendingSelection is created),
and — when the stored bytes exist and the transport succeeds — sends
exactly that file directly. -/
theorem single_match_short_circuit (intent : Intent) (db : List MediaFile)
    (nowDay nowMs : Int) (storageHas : String → Bool) (sendOk : Bool)
    (results : List MediaFile) (queries : List QueryKind)
    (hr : resolveQuery intent db nowDay nowMs = (results, queries))
    (ha : intent.action = .retrieve) (hc : intent.confidence ≠ .low)
    (h1 : results.length = 1) :
    (handleFileQuery (some intent) db nowDay nowMs storageHas sendOk).2.1 =
      none ∧
    (storageHas (results.getD 0 default).storage_url = true → sendOk = true →
      handleFileQuery (some intent) db nowDay nowMs storageHas sendOk =
        (.sentDirect (results.getD 0 default), none, queries)) := by
  obtain ⟨act, ft, tf, it, sq, cf⟩ := intent
  simp only at ha hc
  subst ha
  simp only [handleFileQuery, hr]
  rw [if_neg (by decide : ¬(FAction.retrieve = FAction.noneAct)),
    if_neg hc]
  simp only [handleRetrieve, h1, if_true]
  constructor
  · rfl
  · intro hs hsend
    rw [if_pos hs, if_pos hsend]
    rfl

/-- C2 witness: a semantic query matching exactly one stored file sends it
directly and leaves the map untouched. -/
theorem single_match_short_circuit_witness :
    (handleFileQuery
        (some { action := .retrieve, fileType := some "image",
                timeframe := some .allTime, infoType := none,
                searchQuery := some "cedula", confidence := .high })
        [fA, fC] 0 0 (fun _ => true) true).2.1 = none ∧
    handleFileQuery
        (some { action := .retrieve, fileType := some "image",
                timeframe := some .allTime, infoType := none,
                searchQuery := some "cedula", confidence := .high })
        [fA, fC] 0 0 (fun _ => true) true =
      (.sentDirect fC, none, [.semantic "cedula" 10]) := by
  have h := single_match_short_circuit
    { action := .retrieve, fileType := some "image",
      timeframe := some .allTime, infoType := none,
      searchQuery := some "cedula", confidence := .high }
    [fA, fC] 0 0 (fun _ => true) true [fC] [.semantic "cedula" 10]
    (by decide) rfl (by decide) (by decide)
  exact ⟨h.1, h.2 rfl rfl⟩

/-- C3: multi-match determinism.  When a retrieve intent's query resolves
to more than one MediaFile, exactly the first 10 entries of the
most-recent-first result list are stored as the conversation's pending
selection, and the numbered menu presents those same candidates in that
exact order, labelled with the consecutive 1-based indices. -/
theorem multi_match_determinism (intent : Intent) (db : List MediaFile)
    (nowDay nowMs : Int) (storageHas : String → Bool) (sendOk : Bool)
    (results : List MediaFile) (queries : List QueryKind)
    (hr : resolveQuery intent db nowDay nowMs = (results, queries))
    (ha : intent.action = .retrieve) (hc : intent.confidence ≠ .low)
    (h1 : 1 < results.length) :
    handleFileQuery (some intent) db nowDay nowMs storageHas sendOk =
      (.askSelection (numberedMenu results) results.length,
        some (results.take 10), queries) ∧
    (numberedMenu results).map Prod.snd = results.take 10 ∧
    (numberedMenu results).map Prod.fst =
      List.range' 1 (results.take 10).length ∧
    MostRecentFirst results := by
  obtain ⟨act, ft, tf, it, sq, cf⟩ := intent
  simp only at ha hc
  subst ha
  have hsorted : MostRecentFirst results := by
    have := mostRecentFirst_resolveQuery
      ⟨.retrieve, ft, tf, it, sq, cf⟩ db nowDay nowMs
    rwa [hr] at this
  refine ⟨?_, (numberedMenu_spec results).1, (numberedMenu_spec results).2,
    hsorted⟩
  simp only [handleFileQuery, hr]
  rw [if_neg (by decide : ¬(FAction.retrieve = FAction.noneAct)),
    if_neg hc]
  simp only [handleRetrieve]
  rw [if_neg (by omega : ¬(results.length = 0)),
    if_neg (by omega : ¬(results.length = 1))]

/-- C3 witness: a timeframe `all` query over three images stores all three
(most recent first) as the pending selection and numbers them 1..3. -/
theorem multi_match_determinism_witness :
    handleFileQuery
        (some { action := .retrieve, fileType := none,
                timeframe := some .allTime, infoType := none,
                searchQuery := none, confidence := .high })
        [fA, fC, fB] 0 0 (fun _ => true) true =
      (.askSelection [(1, fC), (2, fB), (3, fA)] 3,
        some [fC, fB, fA], [.allFiles 20]) := by
  have h := multi_match_determinism
    { action := .retrieve, fileType := none, timeframe := some .allTime,
      infoType := none, searchQuery := none, confidence := .high }
    [fA, fC, fB] 0 0 (fun _ => true) true [fC, fB, fA] [.allFiles 20]
    (by decide) rfl (by decide) (by decide)
  rw [h.1]
  rfl

/-- C7: date-range boundary inclusivity.  With the current local time
decomposed as `nowDay * msPerDay + nowMs` (`0 <= nowMs`): a file whose
parent message timestamp is exactly 00:00:00.000 of the current local day
is included in a `timeframe = today` query; a file timestamped exactly
23:59:59.999 of the previous local day is included in a
`timeframe = yesterday` query; and a file timestamped exactly
00:00:00.000 of the current day is excluded from a
`timeframe = yesterday` query. -/
theorem date_range_boundaries (db : List MediaFile) (f : MediaFile)
    (nowDay nowMs : Int) (h0 : 0 ≤ nowMs) (hf : f ∈ db) :
    (f.message_date = nowDay * msPerDay →
      f ∈ (resolveQuery todayIntent db nowDay nowMs).1) ∧
    (f.message_date = nowDay * msPerDay - 1 →
      f ∈ (resolveQuery yesterdayIntent db nowDay nowMs).1) ∧
    (f.message_date = nowDay * msPerDay →
      f ∉ (resolveQuery yesterdayIntent db nowDay nowMs).1) := by
  refine ⟨?_, ?_, ?_⟩
  · intro ht
    show f ∈ getMediaByDateRange db (nowDay * msPerDay)
      (nowDay * msPerDay + nowMs)
    unfold getMediaByDateRange
    rw [mem_sortByDateDesc, List.mem_filter]
    refine ⟨hf, ?_⟩
    rw [ht]
    simp only [Bool.and_eq_true, decide_eq_true_eq, msPerDay]
    omega
  · intro ht
    show f ∈ getMediaByDateRange db ((nowDay - 1) * msPerDay)
      ((nowDay - 1) * msPerDay + 86399999)
    unfold getMediaByDateRange
    rw [mem_sortByDateDesc, List.mem_filter]
    refine ⟨hf, ?_⟩
    rw [ht]
    simp only [Bool.and_eq_true, decide_eq_true_eq, msPerDay]
    omega
  · intro ht hmem
    have hmem' : f ∈ getMediaByDateRange db ((nowDay - 1) * msPerDay)
        ((nowDay - 1) * msPerDay + 86399999) := hmem
    unfold getMediaByDateRange at hmem'
    rw [mem_sortByDateDesc, List.mem_filter] at hmem'
    have hc := hmem'.2
    rw [ht] at hc
    simp only [Bool.and_eq_true, decide_eq_true_eq, msPerDay] at hc
    omega

/-- C7 witness: with the current time at the very start of local day 1,
the file stamped 86400000 ms (midnight today) is returned by the `today`
query; the file stamped 86399999 ms (last millisecond of day 0) is
returned by the `yesterday` query; and the midnight-today file is not
returned by the `yesterday` query. -/
theorem date_range_boundaries_witness :
    fMidnight ∈ (resolveQuery todayIntent [fMidnight, fLastTick] 1 0).1 ∧
    fLastTick ∈ (resolveQuery yesterdayIntent [fMidnight, fLastTick] 1 0).1 ∧
    fMidnight ∉ (resolveQuery yesterdayIntent [fMidnight, fLastTick] 1 0).1 :=
  ⟨(date_range_boundaries [fMidnight, fLastTick] fMidnight 1 0 (by decide)
      (by decide)).1 (by decide),
   (date_range_boundaries [fMidnight, fLastTick] fLastTick 1 0 (by decide)
      (by decide)).2.1 (by decide),
   (date_range_boundaries [fMidnight, fLastTick] fMidnight 1 0 (by decide)
      (by decide)).2.2 (by decide)⟩

theorem splitSearchTerms_ne_empty {q tok : String}
    (h : tok ∈ splitSearchTerms q) : tok.data ≠ [] := by
  unfold splitSearchTerms at h
  rcases List.mem_map.mp h with ⟨w, hw, rfl⟩
  have hlen := List.of_mem_filter hw
  simp only [decide_eq_true_eq] at hlen
  rw [data_mk]
  intro hx
  rw [hx] at hlen
  simp at hlen

theorem containsCI_empty_false {tok : String} (h : tok.data ≠ []) :
    containsCI "" tok = false := by
  unfold containsCI
  cases hd : tok.data with
  | nil => exact absurd hd h
  | cons c r => rfl

theorem rowMatchesTerm_eq_spec (f : MediaFile) (tok : String)
    (h : tok.data ≠ []) :
    rowMatchesTerm f tok =
      (containsCI (match f.file_description with | some d => d | none => "")
          tok
        || containsCI f.file_name tok
        || containsCI (replaceHyphensWithSpaces f.file_name) tok) := by
  cases hd : f.file_description with
  | some d => unfold rowMatchesTerm sqlIlike; rw [hd]
  | none =>
    unfold rowMatchesTerm sqlIlike
    rw [hd, containsCI_empty_false h]

theorem any_congr_mem {l : List String} {p r : String → Bool}
    (h : ∀ a ∈ l, p a = r a) : l.any p = l.any r := by
  induction l with
  | nil => rfl
  | cons a t ih =>
    simp only [List.any_cons]
    rw [h a (List.mem_cons_self a t),
      ih fun b hb => h b (List.mem_cons_of_mem a hb)]

/-- The OR-of-terms condition built by the SQL query coincides with the
spec's matching rule whenever the token list is what both sides use. -/
theorem semanticMatch_bridge (f : MediaFile) (q : String) :
    (splitSearchTerms q).any (rowMatchesTerm f) = specSemanticMatch q f := by
  unfold specSemanticMatch
  exact any_congr_mem fun tok htok =>
    rowMatchesTerm_eq_spec f tok (splitSearchTerms_ne_empty htok)

/-- C5 (amended): semantic-search priority and matching rule.  For every
intent whose `searchQuery` is a non-empty string `q` (JavaScript
truthiness: the empty string falls through to the structural path),
resolution uses only the description search — `fileType` and `timeframe`
are ignored entirely.  When `q` has at least one non-whitespace token, a
returned file is always a stored file matching the claimed rule (some
token occurs case-insensitively in its description, filename, or
filename-with-hyphens-replaced-by-spaces), and — whenever the store holds
at most the 10-row limit — a stored file is a candidate exactly when the
rule matches it.  A whitespace-only query has no tokens and degenerates
to "the 10 most recent files, unconditionally".  Results are always
most-recent-first. -/
theorem semantic_search_rule (intent : Intent) (db : List MediaFile)
    (nowDay nowMs : Int) (q : String)
    (hq : intent.searchQuery = some q) (hne : q ≠ "") :
    (resolveQuery intent db nowDay nowMs).1 =
      searchMediaByDescription db q 10 ∧
    (∀ f ∈ searchMediaByDescription db q 10, f ∈ db) ∧
    (splitSearchTerms q ≠ [] →
      (∀ f ∈ searchMediaByDescription db q 10,
        specSemanticMatch q f = true) ∧
      (db.length ≤ 10 → ∀ f ∈ db,
        (f ∈ searchMediaByDescription db q 10 ↔
          specSemanticMatch q f = true))) ∧
    (splitSearchTerms q = [] →
      searchMediaByDescription db q 10 = (sortByDateDesc db).take 10) ∧
    MostRecentFirst (searchMediaByDescription db q 10) := by
  refine ⟨?_, ?_, ?_, ?_, ?_⟩
  · simp only [resolveQuery, hq]
    rw [if_neg hne]
  · intro f hf
    simp only [searchMediaByDescription] at hf
    have hf2 := mem_sortByDateDesc.mp (List.mem_of_mem_take hf)
    by_cases he : (splitSearchTerms q).isEmpty = true
    · rwa [if_pos he] at hf2
    · rw [if_neg he] at hf2
      exact (List.mem_filter.mp hf2).1
  · intro htok
    have he : (splitSearchTerms q).isEmpty = false := by
      rw [List.isEmpty_eq_false]
      exact htok
    constructor
    · intro f hf
      simp only [searchMediaByDescription, if_neg (by simp [he] : ¬(splitSearchTerms q).isEmpty = true)] at hf
      have hf2 := mem_sortByDateDesc.mp (List.mem_of_mem_take hf)
      have hp := (List.mem_filter.mp hf2).2
      rwa [semanticMatch_bridge] at hp
    · intro hlen f hfdb
      constructor
      · intro hf
        simp only [searchMediaByDescription, if_neg (by simp [he] : ¬(splitSearchTerms q).isEmpty = true)] at hf
        have hf2 := mem_sortByDateDesc.mp (List.mem_of_mem_take hf)
        have hp := (List.mem_filter.mp hf2).2
        rwa [semanticMatch_bridge] at hp
      · intro hspec
        simp only [searchMediaByDescription, if_neg (by simp [he] : ¬(splitSearchTerms q).isEmpty = true)]
        have hmemf : f ∈ db.filter
            (fun g => (splitSearchTerms q).any (rowMatchesTerm g)) := by
          rw [List.mem_filter]
          exact ⟨hfdb, by rw [semanticMatch_bridge]; exact hspec⟩
        have hmem2 := mem_sortByDateDesc.mpr hmemf
        have hlen2 : (sortByDateDesc (db.filter
            (fun g => (splitSearchTerms q).any (rowMatchesTerm g)))).length ≤
              10 := by
          have hp := (List.perm_insertionSort dateDesc (db.filter
            (fun g => (splitSearchTerms q).any (rowMatchesTerm g)))).length_eq
          unfold sortByDateDesc
          rw [hp]
          exact le_trans (List.length_filter_le _ db) hlen
        rwa [List.take_of_length_le hlen2]
  · intro htok
    have he2 : (splitSearchTerms q).isEmpty = true := by
      rw [htok]
      rfl
    simp only [searchMediaByDescription, if_pos he2]
  · exact mostRecentFirst_take 10 (mostRecentFirst_sort _)

/-- C5 counterexample: the claim fails as stated, in two ways.  First, for
the non-null, non-empty `searchQuery` `" "` (whitespace only, hence zero
tokens) every stored file is returned — here `fZ`, whose description is
NULL and whose name contains no token of the query, so the spec rule
matches nothing — contradicting "a stored file is a candidate exactly
when at least one token occurs".  Second, for the non-null `searchQuery`
`""` the JavaScript truthiness test skips the description search
entirely (the resolver returns no results where the description search
would return `fZ`), contradicting "resolution uses only the description
search" for every non-null query. -/
theorem semantic_search_counterexample :
    (resolveQuery wsQueryIntent [fZ] 0 0).1 = [fZ] ∧
    specSemanticMatch " " fZ = false ∧
    (resolveQuery emptyQueryIntent [fZ] 0 0).1 = [] ∧
    searchMediaByDescription [fZ] "" 10 = [fZ] :=
  ⟨rfl, rfl, rfl, rfl⟩

/-- C5 witness: for the query "cedula" over a two-file store, the resolver
takes the semantic path, and membership in the result coincides with the
spec matching rule for both stored files (the cedula image matches, the
undescribed image does not). -/
theorem semantic_search_rule_witness :
    (resolveQuery cedulaQueryIntent [fA, fC] 0 0).1 =
      searchMediaByDescription [fA, fC] "cedula" 10 ∧
    (fC ∈ searchMediaByDescription [fA, fC] "cedula" 10 ↔
      specSemanticMatch "cedula" fC = true) ∧
    (fA ∈ searchMediaByDescription [fA, fC] "cedula" 10 ↔
      specSemanticMatch "cedula" fA = true) := by
  have h := semantic_search_rule cedulaQueryIntent
    [fA, fC] 0 0 "cedula" rfl (by decide)
  have hiff := (h.2.2.1 (by decide)).2 (by decide)
  exact ⟨h.1, hiff fC (by decide), hiff fA (by decide)⟩

set_option maxRecDepth 4096

/-- C8 counterexample: the claimed sanitization shape and idempotence do
not hold uniformly.  The image vision-name chain never strips edge
hyphens: `"a!"` sanitizes to `"a-"`, which ends in a hyphen.  And the
audio chain, which does strip edge hyphens, is not idempotent: on an
input of 49 letters followed by `"-b"`, the 50-character truncation cuts
directly after the hyphen, so one application ends in `"-"` and a second
application removes it. -/
theorem sanitize_counterexample :
    sanitizeImageName "a!" = "a-" ∧
    sanitizeAudioName (sanitizeAudioName
        (String.mk (List.replicate 49 'a' ++ ['-', 'b']))) ≠
      sanitizeAudioName (String.mk (List.replicate 49 'a' ++ ['-', 'b'])) := by
  constructor
  · rfl
  · decide

/-- C8 (amended): filename-sanitization shape and idempotence, as the
three naming paths actually implement them.  Every path (user custom
name, image vision name, audio transcription name) outputs only
characters from `[a-z0-9-]`, at most 50 of them, with no two consecutive
hyphens.  The custom-name and image chains are idempotent but do not
strip leading or trailing hyphens; the audio chain strips edge hyphens
before truncating, so its output never starts with a hyphen — but
truncation can re-expose a trailing hyphen, at which point it is not
idempotent (see the counterexample). -/
theorem sanitize_amended (x : String) :
    SanitizedShape (sanitizeCustomName x) ∧
    SanitizedShape (sanitizeImageName x) ∧
    SanitizedShape (sanitizeAudioName x) ∧
    sanitizeCustomName (sanitizeCustomName x) = sanitizeCustomName x ∧
    sanitizeImageName (sanitizeImageName x) = sanitizeImageName x ∧
    ((sanitizeAudioName x).data.head? == some '-') = false :=
  ⟨sanitizeCustomName_shape x, sanitizeImageName_shape x,
   sanitizeAudioName_shape x, sanitizeCustomName_idem x,
   sanitizeImageName_idem x, sanitizeAudioName_noLead x⟩
